import Mathlib

/-!
Verification of the vdev-tree decoder of `rust-libzfs` (`src/libzfs/src/lib.rs`).

The development shallowly embeds the recursive decoder `enumerate_vdev_tree`
and its helper functions.  Attribute lists (nvlists) are modelled as ordered
association lists of typed values; native C strings are modelled as byte
lists so that the UTF-8 validation performed by `CString::into_string` is
observable.  Machine integers (`u64`) are modelled as `Nat`; none of the
embedded operations perform arithmetic that can overflow, so no modular
reduction is needed.

Parts of the repository that are not under `src/` (the `nvpair` accessor
module, the `libzfs-sys` conversions and the native `zpool_state_to_name`)
are modelled from the specification; each such definition carries a doc
comment saying so.
-/

/-- Byte encoding of an ASCII string literal (all string constants used by
the decoder are ASCII). -/
def asciiBytes (s : String) : List Nat :=
  s.data.map Char.toNat

/-- Uppercase hexadecimal digit characters, least value first. -/
def hexDigitChars : List Char :=
  ['0', '1', '2', '3', '4', '5', '6', '7', '8', '9', 'A', 'B', 'C', 'D', 'E', 'F']

/-- The uppercase hexadecimal digit for a value below 16. -/
def hexDigit (n : Nat) : Char :=
  hexDigitChars.getD n '0'

/-- Fuelled digit production (any fuel at least `n` gives the digits of
`n`; see `natToHexAux_mono`). -/
def natToHexAux : Nat → Nat → List Char
  | 0, _ => []
  | f + 1, n =>
    if n = 0 then [] else natToHexAux f (n / 16) ++ [hexDigit (n % 16)]

/-- Most-significant-first uppercase hexadecimal digits of `n`; empty for 0.
Models the digit production of Rust `UpperHex` formatting. -/
def natToHexCore (n : Nat) : List Char :=
  natToHexAux n n

/-- Uppercase hexadecimal digits of `n` (never empty: 0 renders as "0"),
as Rust `UpperHex` produces them. -/
def hexRepr (n : Nat) : List Char :=
  if n = 0 then ['0'] else natToHexCore n

/-- Left-pad a character list with `a` up to length `n`. -/
def leftPad (n : Nat) (a : Char) (l : List Char) : List Char :=
  List.replicate (n - l.length) a ++ l

/-- Model of Rust `format!` with the format spec used at
`lookup_guid` and `Zpool::guid_hex`: alternate form (`0x` prefix),
zero-padded to total width 18, uppercase hexadecimal.  The zero padding
is inserted between the prefix and the digits. -/
def format_guid (g : Nat) : String :=
  String.mk (['0', 'x'] ++ leftPad 16 '0' (hexRepr g))

/-- `Zpool::guid_hex`: formats the pool's raw guid property with the same
format spec as the per-vdev guid. -/
def guid_hex (guid : Nat) : String :=
  format_guid guid

/-- A UTF-8 continuation byte. -/
def isCont (b : Nat) : Bool :=
  0x80 ≤ b && b ≤ 0xBF

/-- Strict UTF-8 decoding of a byte list, as performed by Rust
`CString::into_string` (via `str::from_utf8`): rejects overlong forms,
surrogate code points and code points above 0x10FFFF.  Returns the decoded
characters, or `none` for invalid input. -/
def utf8Decode : List Nat → Option (List Char)
  | [] => some []
  | b :: rest =>
    if b < 0x80 then
      (utf8Decode rest).map (Char.ofNat b :: ·)
    else if 0xC2 ≤ b && b ≤ 0xDF then
      match rest with
      | c :: r =>
        if isCont c then
          (utf8Decode r).map (Char.ofNat ((b - 0xC0) * 64 + (c - 0x80)) :: ·)
        else none
      | [] => none
    else if b = 0xE0 then
      match rest with
      | c1 :: c2 :: r =>
        if (0xA0 ≤ c1 && c1 ≤ 0xBF) && isCont c2 then
          (utf8Decode r).map
            (Char.ofNat ((b - 0xE0) * 4096 + (c1 - 0x80) * 64 + (c2 - 0x80)) :: ·)
        else none
      | _ => none
    else if 0xE1 ≤ b && b ≤ 0xEC then
      match rest with
      | c1 :: c2 :: r =>
        if isCont c1 && isCont c2 then
          (utf8Decode r).map
            (Char.ofNat ((b - 0xE0) * 4096 + (c1 - 0x80) * 64 + (c2 - 0x80)) :: ·)
        else none
      | _ => none
    else if b = 0xED then
      match rest with
      | c1 :: c2 :: r =>
        if (0x80 ≤ c1 && c1 ≤ 0x9F) && isCont c2 then
          (utf8Decode r).map
            (Char.ofNat ((b - 0xE0) * 4096 + (c1 - 0x80) * 64 + (c2 - 0x80)) :: ·)
        else none
      | _ => none
    else if 0xEE ≤ b && b ≤ 0xEF then
      match rest with
      | c1 :: c2 :: r =>
        if isCont c1 && isCont c2 then
          (utf8Decode r).map
            (Char.ofNat ((b - 0xE0) * 4096 + (c1 - 0x80) * 64 + (c2 - 0x80)) :: ·)
        else none
      | _ => none
    else if b = 0xF0 then
      match rest with
      | c1 :: c2 :: c3 :: r =>
        if (0x90 ≤ c1 && c1 ≤ 0xBF) && (isCont c2 && isCont c3) then
          (utf8Decode r).map
            (Char.ofNat ((b - 0xF0) * 262144 + (c1 - 0x80) * 4096 +
              (c2 - 0x80) * 64 + (c3 - 0x80)) :: ·)
        else none
      | _ => none
    else if 0xF1 ≤ b && b ≤ 0xF3 then
      match rest with
      | c1 :: c2 :: c3 :: r =>
        if isCont c1 && (isCont c2 && isCont c3) then
          (utf8Decode r).map
            (Char.ofNat ((b - 0xF0) * 262144 + (c1 - 0x80) * 4096 +
              (c2 - 0x80) * 64 + (c3 - 0x80)) :: ·)
        else none
      | _ => none
    else if b = 0xF4 then
      match rest with
      | c1 :: c2 :: c3 :: r =>
        if (0x80 ≤ c1 && c1 ≤ 0x8F) && (isCont c2 && isCont c3) then
          (utf8Decode r).map
            (Char.ofNat ((b - 0xF0) * 262144 + (c1 - 0x80) * 4096 +
              (c2 - 0x80) * 64 + (c3 - 0x80)) :: ·)
        else none
      | _ => none
    else none

/-- Error taxonomy of the library.  In the source all of these are values of
`LibZfsError` (`Io` errors with distinct kinds/messages, or `IntoString`):
`notFound` is the accessor failure of the nvpair module, `invalidState`
carries the message of the two `Error::new(ErrorKind::NotFound, ...)` values
built inside `lookup_state`, `unknownVdevType` is the error built by the
fallthrough arm of `enumerate_vdev_tree`, and `stringConversion` is
`LibZfsError::IntoString`. -/
inductive LibZfsError : Type where
  | notFound : LibZfsError
  | invalidState : String → LibZfsError
  | unknownVdevType : LibZfsError
  | stringConversion : LibZfsError
deriving DecidableEq, Repr

/-- `CString::into_string`: succeeds exactly when the bytes are valid UTF-8;
otherwise the `IntoStringError` is converted to `LibZfsError`. -/
def cstr_into_string (bs : List Nat) : Except LibZfsError String :=
  match utf8Decode bs with
  | some cs => .ok (String.mk cs)
  | none => .error .stringConversion

/-- One typed value stored in an attribute list (nvlist): a native string
(byte list), an unsigned 64-bit integer, an array of those, a nested list,
or an array of nested lists. -/
inductive NvVal : Type where
  | vstr : List Nat → NvVal
  | vu64 : Nat → NvVal
  | vu64arr : List Nat → NvVal
  | vlist : List (String × NvVal) → NvVal
  | vlistarr : List (List (String × NvVal)) → NvVal

/-- An attribute list: an ordered mapping from string keys to typed values. -/
abbrev NvList : Type := List (String × NvVal)

/-- `VDev`: the closed tagged union of vdev-tree nodes, exactly as declared
in the source. -/
inductive VDev : Type where
  | Mirror : List VDev → Option Bool → VDev
  | RaidZ : List VDev → VDev
  | Replacing : List VDev → VDev
  | Root : List VDev → List VDev → List VDev → VDev
  | Disk : Option String → String → String → Option String → Option String →
      Option Bool → Option Bool → VDev
  | File : Option String → String → String → Option Bool → VDev

/-- Modelled from the spec (§4.1): nvpair `lookup_string` — the first pair
whose key matches and whose stored value is a string; fails with `NotFound`
when the key is absent or the stored type disagrees. -/
def lookupStr : NvList → String → Except LibZfsError (List Nat)
  | [], _ => .error .notFound
  | (k, NvVal.vstr bs) :: rest, key =>
    if k = key then .ok bs else lookupStr rest key
  | _ :: rest, key => lookupStr rest key

/-- Modelled from the spec (§4.1): nvpair `lookup_uint64`. -/
def lookupU64 : NvList → String → Except LibZfsError Nat
  | [], _ => .error .notFound
  | (k, NvVal.vu64 n) :: rest, key =>
    if k = key then .ok n else lookupU64 rest key
  | _ :: rest, key => lookupU64 rest key

/-- Modelled from the spec (§4.1): nvpair `lookup_uint64_array`. -/
def lookupU64Arr : NvList → String → Except LibZfsError (List Nat)
  | [], _ => .error .notFound
  | (k, NvVal.vu64arr ns) :: rest, key =>
    if k = key then .ok ns else lookupU64Arr rest key
  | _ :: rest, key => lookupU64Arr rest key

/-- Modelled from the spec (§4.1): nvpair `lookup_nv_list_array`. -/
def lookupNvArr : NvList → String → Except LibZfsError (List NvList)
  | [], _ => .error .notFound
  | (k, NvVal.vlistarr ls) :: rest, key =>
    if k = key then .ok ls else lookupNvArr rest key
  | _ :: rest, key => lookupNvArr rest key

/-- Fixed configuration keys (spec §6). -/
def cfgType : String := "type"

def cfgChildren : String := "children"

def cfgSpares : String := "spares"

def cfgL2cache : String := "l2cache"

def cfgPath : String := "path"

def cfgDevId : String := "dev_id"

def cfgPhysPath : String := "phys_path"

def cfgWholeDisk : String := "whole_disk"

def cfgGuid : String := "guid"

def cfgIsLog : String := "is_log"

def cfgVdevStats : String := "vdev_stats"

/-- Byte constant `VDEV_TYPE_DISK` compared against the type tag. -/
def VDEV_TYPE_DISK : List Nat := asciiBytes "disk"

/-- Byte constant `VDEV_TYPE_FILE`. -/
def VDEV_TYPE_FILE : List Nat := asciiBytes "file"

/-- Byte constant `VDEV_TYPE_MIRROR`. -/
def VDEV_TYPE_MIRROR : List Nat := asciiBytes "mirror"

/-- Byte constant `VDEV_TYPE_RAIDZ`. -/
def VDEV_TYPE_RAIDZ : List Nat := asciiBytes "raidz"

/-- Byte constant `VDEV_TYPE_REPLACING`. -/
def VDEV_TYPE_REPLACING : List Nat := asciiBytes "replacing"

/-- Byte constant `VDEV_TYPE_ROOT`. -/
def VDEV_TYPE_ROOT : List Nat := asciiBytes "root"

mutual

/-- Structural size of a stored value (computable counterpart of `sizeOf`,
used as decoding fuel). -/
def nvValSize : NvVal → Nat
  | .vstr _ => 1
  | .vu64 _ => 1
  | .vu64arr _ => 1
  | .vlist l => 1 + nvListSize l
  | .vlistarr ls => 1 + nvListArrSize ls

/-- Structural size of an attribute list. -/
def nvListSize : NvList → Nat
  | [] => 1
  | (_, v) :: rest => 1 + nvValSize v + nvListSize rest

/-- Structural size of a list of attribute lists. -/
def nvListArrSize : List NvList → Nat
  | [] => 1
  | l :: rest => 1 + nvListSize l + nvListArrSize rest

end

/-- A successful nested-list-array lookup returns a strict sub-structure of
the list it was performed on. -/
theorem lookupNvArr_size {t : NvList} {k : String} {xss : List NvList}
    (h : lookupNvArr t k = .ok xss) : nvListArrSize xss < nvListSize t := by
  induction t with
  | nil => simp [lookupNvArr] at h
  | cons p rest ih =>
    obtain ⟨kk, v⟩ := p
    cases v with
    | vstr bs =>
      simp only [lookupNvArr] at h
      have := ih h; simp [nvListSize]; omega
    | vu64 n =>
      simp only [lookupNvArr] at h
      have := ih h; simp [nvListSize]; omega
    | vu64arr ns =>
      simp only [lookupNvArr] at h
      have := ih h; simp [nvListSize]; omega
    | vlist l =>
      simp only [lookupNvArr] at h
      have := ih h; simp [nvListSize]; omega
    | vlistarr ls =>
      simp only [lookupNvArr] at h
      by_cases hk : kk = k
      · simp [hk] at h
        subst h
        simp [nvListSize, nvValSize]
        omega
      · simp [hk] at h
        have := ih h
        simp [nvListSize]
        omega

/-- A successful nested-list-array lookup returns a strict sub-structure of
the list it was performed on. -/
theorem lookupNvArr_sizeOf {t : NvList} {k : String} {xss : List NvList}
    (h : lookupNvArr t k = .ok xss) : sizeOf xss < sizeOf t := by
  induction t with
  | nil => simp [lookupNvArr] at h
  | cons p rest ih =>
    obtain ⟨kk, v⟩ := p
    cases v with
    | vstr bs => simp only [lookupNvArr] at h; have := ih h; simp; omega
    | vu64 n => simp only [lookupNvArr] at h; have := ih h; simp; omega
    | vu64arr ns => simp only [lookupNvArr] at h; have := ih h; simp; omega
    | vlist l => simp only [lookupNvArr] at h; have := ih h; simp; omega
    | vlistarr ls =>
      simp only [lookupNvArr] at h
      by_cases hk : kk = k
      · simp [hk] at h
        subst h
        simp
        omega
      · simp [hk] at h
        have := ih h
        simp
        omega

/-- Modelled from the spec (§4.3 step 4, `libzfs-sys::to_vdev_stat` is not
under `src/`): the packed `vdev_stats` array is reinterpreted as the native
statistics record; the vdev-status code and the auxiliary-status code are
the second and third 64-bit words. -/
def to_vdev_stat (ns : List Nat) : Nat × Nat :=
  (ns.getD 1 0, ns.getD 2 0)

/-- Modelled from the spec (§4.3 step 4, `libzfs-sys::to_vdev_state` is not
under `src/`): maps a raw code into the enumerated vdev-state domain
(UNKNOWN=0 .. HEALTHY=7), `none` outside it. -/
def to_vdev_state (n : Nat) : Option Nat :=
  if n ≤ 7 then some n else none

/-- Modelled from the spec (§4.3 step 4, `libzfs-sys::to_vdev_aux` is not
under `src/`): maps a raw code into the enumerated auxiliary-status domain
(NONE=0 .. last aux reason=19), `none` outside it. -/
def to_vdev_aux (n : Nat) : Option Nat :=
  if n ≤ 19 then some n else none

/-- Modelled from the spec (§4.3 step 4): the native library's combinatorial
state/aux-to-name mapping `zpool_state_to_name`.  HEALTHY renders as
"ONLINE"; CANT_OPEN is refined by the aux reason. -/
def zpool_state_to_name (st ax : Nat) : String :=
  if st = 1 ∨ st = 2 then "OFFLINE"
  else if st = 3 then "REMOVED"
  else if st = 4 then
    if ax = 2 ∨ ax = 13 then "FAULTED"
    else if ax = 15 then "SPLIT"
    else "UNAVAIL"
  else if st = 5 then "FAULTED"
  else if st = 6 then "DEGRADED"
  else if st = 7 then "ONLINE"
  else "UNKNOWN"

/-- `lookup_state`: reads the packed `vdev_stats` array, narrows each
64-bit code to 32 bits (the source's `as u32` casts, modelled as
`% 2 ^ 32`), range-checks the narrowed codes, and combines them into the
state name.  The two out-of-range errors carry the messages built in the
source. -/
def lookup_state (tree : NvList) : Except LibZfsError String :=
  match lookupU64Arr tree cfgVdevStats with
  | .error e => .error e
  | .ok arr =>
    match to_vdev_state ((to_vdev_stat arr).1 % 4294967296) with
    | none => .error (.invalidState "vs_state not in enum range")
    | some st =>
      match to_vdev_aux ((to_vdev_stat arr).2 % 4294967296) with
      | none => .error (.invalidState "vs_aux not in enum range")
      | some ax => .ok (zpool_state_to_name st ax)

/-- `lookup_tree_str`: a failed string lookup yields `none`; a successful
lookup converts the bytes to text, propagating the conversion error. -/
def lookup_tree_str (tree : NvList) (name : String) :
    Except LibZfsError (Option String) :=
  match lookupStr tree name with
  | .ok bs => (cstr_into_string bs).map some
  | .error _ => .ok none

/-- `lookup_is_log`: `is_log` as a boolean derived from equality with 1;
lookup failure yields `none`. -/
def lookup_is_log (tree : NvList) : Option Bool :=
  ((lookupU64 tree cfgIsLog).map (fun x => x == 1)).toOption

/-- `lookup_guid`: the raw guid formatted per `format_guid`; lookup failure
yields `none`. -/
def lookup_guid (tree : NvList) : Option String :=
  ((lookupU64 tree cfgGuid).map format_guid).toOption

/-- The body of `enumerate_vdev_tree`, parameterized by the function `dec`
used to decode the nested-list arrays (the recursion is tied below;
`enumerate_vdev_tree_unfold` shows `enumerate_vdev_tree` satisfies this
body with `dec := decodeList`, exactly the source's recursion equation). -/
def evtBody (dec : List NvList → Except LibZfsError (List VDev))
    (tree : NvList) : Except LibZfsError VDev :=
  match lookupStr tree cfgType with
  | .error e => .error e
  | .ok x =>
    if x = VDEV_TYPE_DISK then
      match lookupStr tree cfgPath with
      | .error e => .error e
      | .ok pb =>
        match cstr_into_string pb with
        | .error e => .error e
        | .ok path =>
          match lookup_tree_str tree cfgDevId with
          | .error e => .error e
          | .ok dev_id =>
            match lookup_tree_str tree cfgPhysPath with
            | .error e => .error e
            | .ok phys_path =>
              let whole_disk :=
                ((lookupU64 tree cfgWholeDisk).map (fun x => x == 1)).toOption
              match lookup_state tree with
              | .error e => .error e
              | .ok st =>
                .ok (VDev.Disk (lookup_guid tree) st path dev_id phys_path
                  whole_disk (lookup_is_log tree))
    else if x = VDEV_TYPE_FILE then
      match lookupStr tree cfgPath with
      | .error e => .error e
      | .ok pb =>
        match cstr_into_string pb with
        | .error e => .error e
        | .ok path =>
          match lookup_state tree with
          | .error e => .error e
          | .ok st =>
            .ok (VDev.File (lookup_guid tree) st path (lookup_is_log tree))
    else if x = VDEV_TYPE_MIRROR then
      match lookupNvArr tree cfgChildren with
      | .error e => .error e
      | .ok xss =>
        (dec xss).map (fun children =>
          VDev.Mirror children (lookup_is_log tree))
    else if x = VDEV_TYPE_RAIDZ then
      match lookupNvArr tree cfgChildren with
      | .error e => .error e
      | .ok xss => (dec xss).map VDev.RaidZ
    else if x = VDEV_TYPE_REPLACING then
      match lookupNvArr tree cfgChildren with
      | .error e => .error e
      | .ok xss => (dec xss).map VDev.Replacing
    else if x = VDEV_TYPE_ROOT then
      match lookupNvArr tree cfgChildren with
      | .error e => .error e
      | .ok xss =>
        match dec xss with
        | .error e => .error e
        | .ok children =>
          match lookupNvArr tree cfgSpares with
          | .error _ =>
            match lookupNvArr tree cfgL2cache with
            | .error _ => .ok (VDev.Root children [] [])
            | .ok zss =>
              (dec zss).map (fun cache => VDev.Root children [] cache)
          | .ok yss =>
            match dec yss with
            | .error e => .error e
            | .ok spares =>
              match lookupNvArr tree cfgL2cache with
              | .error _ => .ok (VDev.Root children spares [])
              | .ok zss =>
                (dec zss).map (fun cache =>
                  VDev.Root children spares cache)
    else .error .unknownVdevType

mutual

/-- Fuelled form of `enumerate_vdev_tree` (the fuel only serves to express
the nested recursion structurally; `evtF_mono` shows any fuel at least
`nvListSize tree` gives the same result). -/
def evtF (fuel : Nat) (tree : NvList) : Except LibZfsError VDev :=
  match fuel with
  | 0 => .error .notFound
  | f + 1 => evtBody (fun xs => decodeListF f xs) tree

/-- Fuelled form of the in-order fail-fast element decoding — the
`.iter().map(enumerate_vdev_tree).collect()` pattern of `get_children`,
`get_spares` and `get_cache`. -/
def decodeListF (fuel : Nat) (xs : List NvList) : Except LibZfsError (List VDev) :=
  match fuel, xs with
  | _, [] => .ok []
  | 0, _ :: _ => .error .notFound
  | f + 1, x :: rest =>
    match evtF f x with
    | .error e => .error e
    | .ok v =>
      match decodeListF f rest with
      | .error e => .error e
      | .ok vs => .ok (v :: vs)

end

/-- `enumerate_vdev_tree`: dispatches on the `type` string tag (compared as
raw bytes, in source order disk, file, mirror, raidz, replacing, root) and
assembles the corresponding `VDev` variant; the fallthrough arm fails with
the unknown-vdev-type error.  `enumerate_vdev_tree_unfold` below restates
this definition as the source's recursion equation. -/
def enumerate_vdev_tree (tree : NvList) : Except LibZfsError VDev :=
  evtF (nvListSize tree) tree

/-- Decoding of a nested-list array, in order, fail-fast on the first
element error. -/
def decodeList (xs : List NvList) : Except LibZfsError (List VDev) :=
  decodeListF (nvListArrSize xs) xs

/-- `get_children`: decode the `children` nested-list array, propagating
lookup failure. -/
def get_children (tree : NvList) : Except LibZfsError (List VDev) :=
  match lookupNvArr tree cfgChildren with
  | .error e => .error e
  | .ok xss => decodeList xss

/-- `get_spares`: decode the `spares` nested-list array; lookup failure
yields the empty list. -/
def get_spares (tree : NvList) : Except LibZfsError (List VDev) :=
  match lookupNvArr tree cfgSpares with
  | .error _ => .ok []
  | .ok xss => decodeList xss

/-- `get_cache`: decode the `l2cache` nested-list array; lookup failure
yields the empty list. -/
def get_cache (tree : NvList) : Except LibZfsError (List VDev) :=
  match lookupNvArr tree cfgL2cache with
  | .error _ => .ok []
  | .ok xss => decodeList xss

/-- Whether the node's type tag is present and equal to `root`. -/
def isRootTagged (t : NvList) : Bool :=
  match lookupStr t cfgType with
  | .ok bs => bs = VDEV_TYPE_ROOT
  | .error _ => false

/-- Whether the node's type tag is present and outside the recognized
vocabulary. -/
def hasUnknownTag (t : NvList) : Bool :=
  match lookupStr t cfgType with
  | .error _ => false
  | .ok bs =>
    !(bs = VDEV_TYPE_DISK ∨ bs = VDEV_TYPE_FILE ∨ bs = VDEV_TYPE_MIRROR ∨
      bs = VDEV_TYPE_RAIDZ ∨ bs = VDEV_TYPE_REPLACING ∨ bs = VDEV_TYPE_ROOT)

mutual

/-- Fuelled form of `someChildUnknown` (fuel as in `evtF`). -/
def someChildUnknownF (fuel : Nat) (t : NvList) : Bool :=
  match fuel with
  | 0 => false
  | f + 1 =>
    match lookupNvArr t cfgChildren with
    | .error _ => false
    | .ok xss => someChildUnknownListF f xss

/-- Fuelled list form of `someChildUnknown`: some listed node has an
unrecognized type, or — recursively — one of its children-descendants
does. -/
def someChildUnknownListF (fuel : Nat) (xs : List NvList) : Bool :=
  match fuel, xs with
  | _, [] => false
  | 0, _ :: _ => false
  | f + 1, x :: rest =>
    hasUnknownTag x || someChildUnknownF f x || someChildUnknownListF f rest

end

/-- Structural reading of "descendant reached through a `children` array":
some node strictly below `t`, reached by following `children` nested-list
arrays regardless of the parent's type tag, has an unrecognized type. -/
def someChildUnknown (t : NvList) : Bool :=
  someChildUnknownF (nvListSize t) t

mutual

/-- Fuelled form of `visitedUnknown` (fuel as in `evtF`). -/
def visitedUnknownF (fuel : Nat) (t : NvList) : Bool :=
  match fuel with
  | 0 => false
  | f + 1 =>
    match lookupStr t cfgType with
    | .error _ => false
    | .ok bs =>
      if bs = VDEV_TYPE_DISK ∨ bs = VDEV_TYPE_FILE then false
      else if bs = VDEV_TYPE_MIRROR ∨ bs = VDEV_TYPE_RAIDZ ∨
          bs = VDEV_TYPE_REPLACING ∨ bs = VDEV_TYPE_ROOT then
        match lookupNvArr t cfgChildren with
        | .error _ => false
        | .ok xss => visitedUnknownListF f xss
      else true

/-- Fuelled list form of `visitedUnknown`. -/
def visitedUnknownListF (fuel : Nat) (xs : List NvList) : Bool :=
  match fuel, xs with
  | _, [] => false
  | 0, _ :: _ => false
  | f + 1, x :: rest => visitedUnknownF f x || visitedUnknownListF f rest

end

/-- Whether the decoder's own traversal meets an unrecognized type tag:
the node itself, or — when the node is tagged `mirror`, `raidz`,
`replacing` or `root` — recursively one of the nodes of its `children`
array. -/
def visitedUnknown (t : NvList) : Bool :=
  visitedUnknownF (nvListSize t) t

mutual

/-- Fuelled form of `strictDescNonRoot` (fuel as in `evtF`). -/
def strictDescNonRootF (fuel : Nat) (t : NvList) : Bool :=
  match fuel with
  | 0 => true
  | f + 1 =>
    (match lookupNvArr t cfgChildren with
     | .error _ => true
     | .ok xss => listsNonRootF f xss) &&
    (match lookupNvArr t cfgSpares with
     | .error _ => true
     | .ok xss => listsNonRootF f xss) &&
    (match lookupNvArr t cfgL2cache with
     | .error _ => true
     | .ok xss => listsNonRootF f xss)

/-- Fuelled list form of `strictDescNonRoot`: no listed node is
`root`-tagged, nor any node below one. -/
def listsNonRootF (fuel : Nat) (xs : List NvList) : Bool :=
  match fuel, xs with
  | _, [] => true
  | 0, _ :: _ => true
  | f + 1, x :: rest =>
    !(isRootTagged x) && strictDescNonRootF f x && listsNonRootF f rest

end

/-- No node strictly below `t` — reached through the `children`, `spares`
or `l2cache` nested-list arrays — carries the `root` type tag. -/
def strictDescNonRoot (t : NvList) : Bool :=
  strictDescNonRootF (nvListSize t) t

mutual

/-- The `Root` variant occurs nowhere in the value, itself included. -/
def rootFree : VDev → Bool
  | .Mirror cs _ => rootFreeList cs
  | .RaidZ cs => rootFreeList cs
  | .Replacing cs => rootFreeList cs
  | .Root _ _ _ => false
  | .Disk _ _ _ _ _ _ _ => true
  | .File _ _ _ _ => true

/-- The `Root` variant occurs nowhere in the listed values. -/
def rootFreeList : List VDev → Bool
  | [] => true
  | v :: vs => rootFree v && rootFreeList vs

end

/-- The `Root` variant occurs at most as the top-level value: strictly
below the top it appears nowhere. -/
def noStrictRootDesc : VDev → Bool
  | .Root cs ss ks => rootFreeList cs && rootFreeList ss && rootFreeList ks
  | v => rootFree v

/-- Test fixture: a healthy fully-populated `disk` node (as in the
repository's own end-to-end test pool). -/
def sampleDisk (p : String) : NvList :=
  [(cfgType, NvVal.vstr (asciiBytes "disk")),
   (cfgPath, NvVal.vstr (asciiBytes p)),
   (cfgDevId, NvVal.vstr (asciiBytes "ata-QEMU-part1")),
   (cfgPhysPath, NvVal.vstr (asciiBytes "pci-0000")),
   (cfgWholeDisk, NvVal.vu64 1),
   (cfgGuid, NvVal.vu64 26),
   (cfgVdevStats, NvVal.vu64arr [0, 7, 0])]

/-- The `VDev` value `sampleDisk p` decodes to. -/
def sampleDiskV (p : String) : VDev :=
  VDev.Disk (some (format_guid 26)) "ONLINE" p (some "ata-QEMU-part1")
    (some "pci-0000") (some true) none

/-- Test fixture: a `mirror` of two healthy disks. -/
def sampleMirror : NvList :=
  [(cfgType, NvVal.vstr (asciiBytes "mirror")),
   (cfgChildren, NvVal.vlistarr [sampleDisk "/dev/sdb1", sampleDisk "/dev/sdc1"])]

/-- Test fixture: a `root` with one mirror child, two spares and one cache
device (the shape of the repository's end-to-end test pool). -/
def sampleRoot : NvList :=
  [(cfgType, NvVal.vstr (asciiBytes "root")),
   (cfgChildren, NvVal.vlistarr [sampleMirror]),
   (cfgSpares, NvVal.vlistarr [sampleDisk "/dev/sde1", sampleDisk "/dev/sdf1"]),
   (cfgL2cache, NvVal.vlistarr [sampleDisk "/dev/sdd1"])]

/-- Test fixture: a minimal healthy `disk` node carrying only the mandatory
keys (no `dev_id`, no `phys_path`, no `whole_disk`, no `guid`, no
`is_log`). -/
def diskBare : NvList :=
  [(cfgType, NvVal.vstr (asciiBytes "disk")),
   (cfgPath, NvVal.vstr (asciiBytes "/dev/sda1")),
   (cfgVdevStats, NvVal.vu64arr [0, 7, 0])]

/-- Test fixture: a `disk` node whose `whole_disk` value is 2. -/
def diskWholeDisk2 : NvList :=
  [(cfgType, NvVal.vstr (asciiBytes "disk")),
   (cfgPath, NvVal.vstr (asciiBytes "/dev/sda1")),
   (cfgWholeDisk, NvVal.vu64 2),
   (cfgVdevStats, NvVal.vu64arr [0, 7, 0])]

/-- Test fixture: a `disk` node whose stored `dev_id` bytes are not valid
UTF-8 (a lone 0xFF byte). -/
def diskBadDevId : NvList :=
  [(cfgType, NvVal.vstr (asciiBytes "disk")),
   (cfgPath, NvVal.vstr (asciiBytes "/dev/sda1")),
   (cfgDevId, NvVal.vstr [255]),
   (cfgVdevStats, NvVal.vu64arr [0, 7, 0])]

/-- Test fixture: a `disk` node whose `vdev_stats` status code 9 is outside
the enumerated vdev-state domain. -/
def diskBadStats : NvList :=
  [(cfgType, NvVal.vstr (asciiBytes "disk")),
   (cfgPath, NvVal.vstr (asciiBytes "/dev/sda1")),
   (cfgVdevStats, NvVal.vu64arr [0, 9, 0])]

/-- Test fixture: a node with the unrecognized type tag `bogus`. -/
def nodeBogus : NvList :=
  [(cfgType, NvVal.vstr (asciiBytes "bogus"))]

/-- Test fixture: a healthy `disk` node that also carries a `children`
array holding a bogus-typed node (the decoder never visits it). -/
def diskWithBogusChild : NvList :=
  [(cfgType, NvVal.vstr (asciiBytes "disk")),
   (cfgPath, NvVal.vstr (asciiBytes "/dev/sda1")),
   (cfgVdevStats, NvVal.vu64arr [0, 7, 0]),
   (cfgChildren, NvVal.vlistarr [nodeBogus])]

/-- Test fixture: a `root` whose only child has a bogus type tag. -/
def rootWithBogusChild : NvList :=
  [(cfgType, NvVal.vstr (asciiBytes "root")),
   (cfgChildren, NvVal.vlistarr [nodeBogus])]

/-- Test fixture: a `root` whose only child is itself tagged `root`. -/
def rootNestedRoot : NvList :=
  [(cfgType, NvVal.vstr (asciiBytes "root")),
   (cfgChildren, NvVal.vlistarr
     [[(cfgType, NvVal.vstr (asciiBytes "root")),
       (cfgChildren, NvVal.vlistarr ([] : List NvList))]])]

/-- Test fixture: a `root` with one bare disk child and no `spares` or
`l2cache` key. -/
def rootNoSpares : NvList :=
  [(cfgType, NvVal.vstr (asciiBytes "root")),
   (cfgChildren, NvVal.vlistarr [diskBare])]

/-- Test fixture: a `disk` node whose status code is `2 ^ 32 + 7`: the
32-bit narrowing accepts it as HEALTHY. -/
def diskHighBits : NvList :=
  [(cfgType, NvVal.vstr (asciiBytes "disk")),
   (cfgPath, NvVal.vstr (asciiBytes "/dev/sda1")),
   (cfgVdevStats, NvVal.vu64arr [0, 4294967303, 0])]

/-- Test fixture: a `file` node whose `vdev_stats` status code 9 is
outside the enumerated vdev-state domain. -/
def fileBadStats : NvList :=
  [(cfgType, NvVal.vstr (asciiBytes "file")),
   (cfgPath, NvVal.vstr (asciiBytes "/vdev0.img")),
   (cfgVdevStats, NvVal.vu64arr [0, 9, 0])]

/-- Test fixture: a `disk` node whose stored `phys_path` bytes are not
valid UTF-8 (a lone 0xFF byte). -/
def diskBadPhysPath : NvList :=
  [(cfgType, NvVal.vstr (asciiBytes "disk")),
   (cfgPath, NvVal.vstr (asciiBytes "/dev/sda1")),
   (cfgPhysPath, NvVal.vstr [255]),
   (cfgVdevStats, NvVal.vu64arr [0, 7, 0])]

/-- Attribute lists have positive structural size. -/
theorem nvListSize_pos (t : NvList) : 1 ≤ nvListSize t := by
  cases t <;> simp [nvListSize] <;> omega

/-- Lists of attribute lists have positive structural size. -/
theorem nvListArrSize_pos (xs : List NvList) : 1 ≤ nvListArrSize xs := by
  cases xs <;> simp [nvListArrSize] <;> omega

/-- Size of a cons cell of attribute lists. -/
theorem nvListArrSize_cons (x : NvList) (rest : List NvList) :
    nvListArrSize (x :: rest) = 1 + nvListSize x + nvListArrSize rest := rfl

/-- The empty array decodes to the empty list at any fuel. -/
theorem decodeListF_nil (f : Nat) : decodeListF f [] = .ok [] := by
  cases f <;> rfl

/-- `evtBody` only applies its array-decoding argument to strict
sub-structures of the node, so two decoders agreeing there give the same
result. -/
theorem evtBody_congr {dec1 dec2 : List NvList → Except LibZfsError (List VDev)}
    (tree : NvList)
    (h : ∀ xss, nvListArrSize xss < nvListSize tree → dec1 xss = dec2 xss) :
    evtBody dec1 tree = evtBody dec2 tree := by
  simp only [evtBody]
  cases ht : lookupStr tree cfgType with
  | error e => rfl
  | ok x =>
    by_cases h1 : x = VDEV_TYPE_DISK
    · simp only [if_pos h1]
    · simp only [if_neg h1]
      by_cases h2 : x = VDEV_TYPE_FILE
      · simp only [if_pos h2]
      · simp only [if_neg h2]
        by_cases h3 : x = VDEV_TYPE_MIRROR
        · simp only [if_pos h3]
          cases hc : lookupNvArr tree cfgChildren with
          | error e => rfl
          | ok xss => simp only [h xss (lookupNvArr_size hc)]
        · simp only [if_neg h3]
          by_cases h4 : x = VDEV_TYPE_RAIDZ
          · simp only [if_pos h4]
            cases hc : lookupNvArr tree cfgChildren with
            | error e => rfl
            | ok xss => simp only [h xss (lookupNvArr_size hc)]
          · simp only [if_neg h4]
            by_cases h5 : x = VDEV_TYPE_REPLACING
            · simp only [if_pos h5]
              cases hc : lookupNvArr tree cfgChildren with
              | error e => rfl
              | ok xss => simp only [h xss (lookupNvArr_size hc)]
            · simp only [if_neg h5]
              by_cases h6 : x = VDEV_TYPE_ROOT
              · simp only [if_pos h6]
                cases hc : lookupNvArr tree cfgChildren with
                | error e => rfl
                | ok xss =>
                  simp only [h xss (lookupNvArr_size hc)]
                  cases hd : dec2 xss with
                  | error e => rfl
                  | ok children =>
                    cases hs : lookupNvArr tree cfgSpares with
                    | error a =>
                      cases hl : lookupNvArr tree cfgL2cache with
                      | error a => rfl
                      | ok zss => simp only [h zss (lookupNvArr_size hl)]
                    | ok yss =>
                      simp only [h yss (lookupNvArr_size hs)]
                      cases he : dec2 yss with
                      | error e => rfl
                      | ok spares =>
                        cases hl : lookupNvArr tree cfgL2cache with
                        | error a => rfl
                        | ok zss => simp only [h zss (lookupNvArr_size hl)]
              · simp only [if_neg h6]

/-- Any fuel at least the structural size of the input yields the same
decoding result (joint statement for nodes and arrays). -/
theorem fuel_mono (f : Nat) :
    (∀ t g, nvListSize t ≤ f → nvListSize t ≤ g → evtF f t = evtF g t) ∧
    (∀ xs g, nvListArrSize xs ≤ f → nvListArrSize xs ≤ g →
      decodeListF f xs = decodeListF g xs) := by
  induction f with
  | zero =>
    constructor
    · intro t g hf _
      have := nvListSize_pos t
      omega
    · intro xs g hf _
      have := nvListArrSize_pos xs
      omega
  | succ f ih =>
    constructor
    · intro t g hf hg
      have hg1 : 1 ≤ g := le_trans (nvListSize_pos t) hg
      obtain ⟨g', rfl⟩ : ∃ g', g = g' + 1 := ⟨g - 1, by omega⟩
      simp only [evtF]
      apply evtBody_congr
      intro xss hlt
      exact ih.2 xss g' (by omega) (by omega)
    · intro xs g hf hg
      cases xs with
      | nil => rw [decodeListF_nil, decodeListF_nil]
      | cons x rest =>
        rw [nvListArrSize_cons] at hf hg
        have hx := nvListSize_pos x
        have hr := nvListArrSize_pos rest
        obtain ⟨g', rfl⟩ : ∃ g', g = g' + 1 := ⟨g - 1, by omega⟩
        simp only [decodeListF]
        rw [ih.1 x g' (by omega) (by omega)]
        cases hv : evtF g' x with
        | error e => rfl
        | ok v =>
          rw [ih.2 rest g' (by omega) (by omega)]

/-- Enough fuel computes `enumerate_vdev_tree`. -/
theorem evtF_eq_enumerate {f : Nat} {t : NvList} (h : nvListSize t ≤ f) :
    evtF f t = enumerate_vdev_tree t :=
  (fuel_mono f).1 t (nvListSize t) h le_rfl

/-- Enough fuel computes `decodeList`. -/
theorem decodeListF_eq_decodeList {f : Nat} {xs : List NvList}
    (h : nvListArrSize xs ≤ f) : decodeListF f xs = decodeList xs :=
  (fuel_mono f).2 xs (nvListArrSize xs) h le_rfl

/-- The recursion equation of the source decoder: `enumerate_vdev_tree`
satisfies its body with the nested-list arrays decoded by `decodeList`. -/
theorem enumerate_vdev_tree_unfold (tree : NvList) :
    enumerate_vdev_tree tree = evtBody decodeList tree := by
  have h1 := nvListSize_pos tree
  show evtF (nvListSize tree) tree = _
  obtain ⟨s, hs⟩ : ∃ s, nvListSize tree = s + 1 := ⟨nvListSize tree - 1, by omega⟩
  rw [hs]
  simp only [evtF]
  apply evtBody_congr
  intro xss hlt
  exact decodeListF_eq_decodeList (by omega)

/-- `decodeList` on the empty array. -/
theorem decodeList_nil : decodeList [] = .ok [] := rfl

/-- The recursion equation of `decodeList`: decode the head, then the tail,
fail-fast. -/
theorem decodeList_cons (x : NvList) (rest : List NvList) :
    decodeList (x :: rest) =
      match enumerate_vdev_tree x with
      | .error e => .error e
      | .ok v =>
        match decodeList rest with
        | .error e => .error e
        | .ok vs => .ok (v :: vs) := by
  have hx := nvListSize_pos x
  have hr := nvListArrSize_pos rest
  show decodeListF (nvListArrSize (x :: rest)) (x :: rest) = _
  rw [nvListArrSize_cons]
  obtain ⟨m, hm⟩ : ∃ m, 1 + nvListSize x + nvListArrSize rest = m + 1 :=
    ⟨nvListSize x + nvListArrSize rest, by omega⟩
  rw [hm]
  simp only [decodeListF]
  rw [evtF_eq_enumerate (by omega), decodeListF_eq_decodeList (by omega)]

/-- A failed `type` lookup propagates its own error (line 307's `?`). -/
theorem evt_tag_error {t : NvList} {e : LibZfsError}
    (h : lookupStr t cfgType = .error e) :
    enumerate_vdev_tree t = .error e := by
  rw [enumerate_vdev_tree_unfold]
  simp only [evtBody, h]

/-- A type tag outside the vocabulary hits the fallthrough arm. -/
theorem evt_unknown {t : NvList} {bs : List Nat}
    (h : lookupStr t cfgType = .ok bs)
    (h1 : bs ≠ VDEV_TYPE_DISK) (h2 : bs ≠ VDEV_TYPE_FILE)
    (h3 : bs ≠ VDEV_TYPE_MIRROR) (h4 : bs ≠ VDEV_TYPE_RAIDZ)
    (h5 : bs ≠ VDEV_TYPE_REPLACING) (h6 : bs ≠ VDEV_TYPE_ROOT) :
    enumerate_vdev_tree t = .error .unknownVdevType := by
  rw [enumerate_vdev_tree_unfold]
  simp only [evtBody, h, if_neg h1, if_neg h2, if_neg h3, if_neg h4,
    if_neg h5, if_neg h6]

/-- The `disk` branch of the decoder. -/
theorem evt_disk {t : NvList} (h : lookupStr t cfgType = .ok VDEV_TYPE_DISK) :
    enumerate_vdev_tree t =
      match lookupStr t cfgPath with
      | .error e => .error e
      | .ok pb =>
        match cstr_into_string pb with
        | .error e => .error e
        | .ok path =>
          match lookup_tree_str t cfgDevId with
          | .error e => .error e
          | .ok dev_id =>
            match lookup_tree_str t cfgPhysPath with
            | .error e => .error e
            | .ok phys_path =>
              match lookup_state t with
              | .error e => .error e
              | .ok st =>
                .ok (VDev.Disk (lookup_guid t) st path dev_id phys_path
                  (((lookupU64 t cfgWholeDisk).map (fun x => x == 1)).toOption)
                  (lookup_is_log t)) := by
  rw [enumerate_vdev_tree_unfold]
  simp only [evtBody, h, if_pos rfl, if_true]

/-- The `file` branch of the decoder. -/
theorem evt_file {t : NvList} (h : lookupStr t cfgType = .ok VDEV_TYPE_FILE) :
    enumerate_vdev_tree t =
      match lookupStr t cfgPath with
      | .error e => .error e
      | .ok pb =>
        match cstr_into_string pb with
        | .error e => .error e
        | .ok path =>
          match lookup_state t with
          | .error e => .error e
          | .ok st =>
            .ok (VDev.File (lookup_guid t) st path (lookup_is_log t)) := by
  rw [enumerate_vdev_tree_unfold]
  simp only [evtBody, h, if_neg (by decide : ¬(VDEV_TYPE_FILE = VDEV_TYPE_DISK)),
    if_pos rfl, if_true]

/-- The `mirror` branch of the decoder. -/
theorem evt_mirror {t : NvList} (h : lookupStr t cfgType = .ok VDEV_TYPE_MIRROR) :
    enumerate_vdev_tree t =
      (get_children t).map (fun children =>
        VDev.Mirror children (lookup_is_log t)) := by
  rw [enumerate_vdev_tree_unfold]
  simp only [evtBody, h,
    if_neg (by decide : ¬(VDEV_TYPE_MIRROR = VDEV_TYPE_DISK)),
    if_neg (by decide : ¬(VDEV_TYPE_MIRROR = VDEV_TYPE_FILE)), if_pos rfl, if_true,
    get_children]
  cases hc : lookupNvArr t cfgChildren with
  | error e => rfl
  | ok xss => rfl

/-- The `raidz` branch of the decoder. -/
theorem evt_raidz {t : NvList} (h : lookupStr t cfgType = .ok VDEV_TYPE_RAIDZ) :
    enumerate_vdev_tree t = (get_children t).map VDev.RaidZ := by
  rw [enumerate_vdev_tree_unfold]
  simp only [evtBody, h,
    if_neg (by decide : ¬(VDEV_TYPE_RAIDZ = VDEV_TYPE_DISK)),
    if_neg (by decide : ¬(VDEV_TYPE_RAIDZ = VDEV_TYPE_FILE)),
    if_neg (by decide : ¬(VDEV_TYPE_RAIDZ = VDEV_TYPE_MIRROR)), if_pos rfl, if_true,
    get_children]
  cases hc : lookupNvArr t cfgChildren with
  | error e => rfl
  | ok xss => rfl

/-- The `replacing` branch of the decoder. -/
theorem evt_replacing {t : NvList}
    (h : lookupStr t cfgType = .ok VDEV_TYPE_REPLACING) :
    enumerate_vdev_tree t = (get_children t).map VDev.Replacing := by
  rw [enumerate_vdev_tree_unfold]
  simp only [evtBody, h,
    if_neg (by decide : ¬(VDEV_TYPE_REPLACING = VDEV_TYPE_DISK)),
    if_neg (by decide : ¬(VDEV_TYPE_REPLACING = VDEV_TYPE_FILE)),
    if_neg (by decide : ¬(VDEV_TYPE_REPLACING = VDEV_TYPE_MIRROR)),
    if_neg (by decide : ¬(VDEV_TYPE_REPLACING = VDEV_TYPE_RAIDZ)), if_pos rfl, if_true,
    get_children]
  cases hc : lookupNvArr t cfgChildren with
  | error e => rfl
  | ok xss => rfl

/-- The `root` branch of the decoder: children first (failure propagates),
then spares, then cache, the latter two tolerating lookup failure as the
empty list. -/
theorem evt_root {t : NvList} (h : lookupStr t cfgType = .ok VDEV_TYPE_ROOT) :
    enumerate_vdev_tree t =
      match lookupNvArr t cfgChildren with
      | .error e => .error e
      | .ok xss =>
        match decodeList xss with
        | .error e => .error e
        | .ok children =>
          match lookupNvArr t cfgSpares with
          | .error _ =>
            match lookupNvArr t cfgL2cache with
            | .error _ => .ok (VDev.Root children [] [])
            | .ok zss =>
              (decodeList zss).map (fun cache => VDev.Root children [] cache)
          | .ok yss =>
            match decodeList yss with
            | .error e => .error e
            | .ok spares =>
              match lookupNvArr t cfgL2cache with
              | .error _ => .ok (VDev.Root children spares [])
              | .ok zss =>
                (decodeList zss).map (fun cache =>
                  VDev.Root children spares cache) := by
  rw [enumerate_vdev_tree_unfold]
  simp only [evtBody, h,
    if_neg (by decide : ¬(VDEV_TYPE_ROOT = VDEV_TYPE_DISK)),
    if_neg (by decide : ¬(VDEV_TYPE_ROOT = VDEV_TYPE_FILE)),
    if_neg (by decide : ¬(VDEV_TYPE_ROOT = VDEV_TYPE_MIRROR)),
    if_neg (by decide : ¬(VDEV_TYPE_ROOT = VDEV_TYPE_RAIDZ)),
    if_neg (by decide : ¬(VDEV_TYPE_ROOT = VDEV_TYPE_REPLACING)), if_pos rfl,
    if_true]

/-- A successful array decode has one output per input. -/
theorem decodeList_ok_length {xs : List NvList} {vs : List VDev}
    (h : decodeList xs = .ok vs) : vs.length = xs.length := by
  induction xs generalizing vs with
  | nil =>
    rw [decodeList_nil] at h
    cases h
    rfl
  | cons x rest ih =>
    rw [decodeList_cons] at h
    rcases hv : enumerate_vdev_tree x with e | v <;> rw [hv] at h
    · simp at h
    · rcases hr : decodeList rest with e | vs' <;> rw [hr] at h
      · simp at h
      · simp only [] at h
        cases h
        simp [ih hr]

/-- A successful array decode maps the i-th input to the i-th output. -/
theorem decodeList_ok_get {xs : List NvList} {vs : List VDev}
    (h : decodeList xs = .ok vs) :
    ∀ i (h1 : i < xs.length) (h2 : i < vs.length),
      enumerate_vdev_tree (xs.get ⟨i, h1⟩) = .ok (vs.get ⟨i, h2⟩) := by
  induction xs generalizing vs with
  | nil =>
    intro i h1 h2
    simp at h1
  | cons x rest ih =>
    rw [decodeList_cons] at h
    rcases hv : enumerate_vdev_tree x with e | v <;> rw [hv] at h
    · simp at h
    · rcases hr : decodeList rest with e | vs' <;> rw [hr] at h
      · simp at h
      · simp only [] at h
        cases h
        intro i h1 h2
        cases i with
        | zero => simpa using hv
        | succ j =>
          simp only [List.get]
          exact ih hr j (by simpa using h1) (by simpa using h2)

/-- If some element of the array fails to decode, the whole array decode
fails (with the first error met, not necessarily the same one). -/
theorem decodeList_mem_error {xs : List NvList} {x : NvList}
    (hm : x ∈ xs) (hx : ∀ v, enumerate_vdev_tree x ≠ .ok v) :
    ∃ e, decodeList xs = .error e := by
  induction xs with
  | nil => cases hm
  | cons y rest ih =>
    rw [decodeList_cons]
    rcases hv : enumerate_vdev_tree y with e | v
    · exact ⟨e, rfl⟩
    · rcases List.mem_cons.mp hm with rfl | hm'
      · exact absurd hv (hx v)
      · obtain ⟨e, he⟩ := ih hm'
        rw [he]
        exact ⟨e, rfl⟩

/-- With fuel at least `n`, the digit production of `n` has at most `k`
digits when `n < 16 ^ k`. -/
theorem natToHexAux_length : ∀ (f k n : Nat), n ≤ f → n < 16 ^ k →
    (natToHexAux f n).length ≤ k := by
  intro f
  induction f with
  | zero => intro k n _ _; simp [natToHexAux]
  | succ f ih =>
    intro k n hn hk
    simp only [natToHexAux]
    by_cases h0 : n = 0
    · simp [h0]
    · simp only [h0, if_neg, if_false]
      cases k with
      | zero => simp at hk; omega
      | succ k' =>
        have hdiv : n / 16 < n := Nat.div_lt_self (by omega) (by decide)
        have h2 : n / 16 < 16 ^ k' := by
          rw [Nat.div_lt_iff_lt_mul (by decide : 0 < 16)]
          calc n < 16 ^ (k' + 1) := hk
          _ = 16 ^ k' * 16 := by rw [pow_succ]
        have := ih k' (n / 16) (by omega) h2
        simp [List.length_append]
        omega

/-- Every digit character produced is an uppercase hexadecimal digit. -/
theorem hexDigit_mem (m : Nat) : hexDigit m ∈ hexDigitChars := by
  unfold hexDigit
  rcases Nat.lt_or_ge m hexDigitChars.length with h | h
  · rw [List.getD_eq_getElem _ _ h]
    exact List.getElem_mem _
  · rw [List.getD_eq_default _ _ h]
    decide

/-- Every character of the digit production is an uppercase hexadecimal
digit. -/
theorem natToHexAux_mem : ∀ (f n : Nat) (c : Char), c ∈ natToHexAux f n →
    c ∈ hexDigitChars := by
  intro f
  induction f with
  | zero => intro n c h; simp [natToHexAux] at h
  | succ f ih =>
    intro n c h
    simp only [natToHexAux] at h
    by_cases h0 : n = 0
    · simp [h0] at h
    · simp only [h0, if_neg, if_false, List.mem_append, List.mem_singleton] at h
      rcases h with h | h
      · exact ih (n / 16) c h
      · rw [h]; exact hexDigit_mem _

/-- C5: for every unsigned 64-bit guid value `g`, both the decoder's
per-vdev guid field (`lookup_guid`) and `Zpool::guid_hex` render `g` as an
18-character string: the prefix `0x` followed by exactly 16 zero-padded
uppercase hexadecimal digits; in particular the raw value 0x1A (= 26)
renders as "0x000000000000001A". -/
theorem c5_guid_format (g : Nat) (hg : g < 2 ^ 64) :
    (format_guid g).length = 18 ∧
    (format_guid g).data.take 2 = ['0', 'x'] ∧
    ((format_guid g).data.drop 2).length = 16 ∧
    (∀ c ∈ (format_guid g).data.drop 2, c ∈ hexDigitChars) ∧
    guid_hex g = format_guid g ∧
    (∀ t : NvList, lookupU64 t cfgGuid = .ok g →
      lookup_guid t = some (format_guid g)) ∧
    format_guid 26 = "0x000000000000001A" := by
  have hrepr : (hexRepr g).length ≤ 16 := by
    unfold hexRepr
    by_cases h0 : g = 0
    · simp [h0]
    · simp only [h0, if_neg, if_false]
      exact natToHexAux_length g 16 g le_rfl (by norm_num at hg ⊢; omega)
  have hpad : (leftPad 16 '0' (hexRepr g)).length = 16 := by
    simp only [leftPad, List.length_append, List.length_replicate]
    omega
  have hdata : (format_guid g).data = ['0', 'x'] ++ leftPad 16 '0' (hexRepr g) := rfl
  refine ⟨?_, ?_, ?_, ?_, rfl, ?_, rfl⟩
  · show (format_guid g).data.length = 18
    rw [hdata]
    simp [hpad]
  · rw [hdata]
    rfl
  · have hdrop : (format_guid g).data.drop 2 = leftPad 16 '0' (hexRepr g) := rfl
    rw [hdrop, hpad]
  · intro c hc
    have hdrop : (format_guid g).data.drop 2 = leftPad 16 '0' (hexRepr g) := rfl
    rw [hdrop] at hc
    simp only [leftPad, List.mem_append, List.mem_replicate] at hc
    rcases hc with hc | hc
    · rw [hc.2]; decide
    · unfold hexRepr natToHexCore at hc
      by_cases h0 : g = 0
      · simp [h0] at hc
        rw [hc]; decide
      · simp only [h0, if_neg, if_false] at hc
        exact natToHexAux_mem g g c hc
  · intro t ht
    unfold lookup_guid
    rw [ht]
    rfl

/-- C3: state derivation reads the vdev-status and auxiliary-status codes
from the packed `vdev_stats` array and narrows each to 32 bits (the
source's `as u32` casts); a narrowed status of ONLINE (HEALTHY = 7) with a
narrowed aux of NONE (= 0) derives the state string "ONLINE", and either
narrowed value outside its enumerated domain fails with an InvalidState
error; on a `disk` or `file` node such a failure aborts the node's decode
with that error. -/
theorem c3_state_derivation (t : NvList) (arr : List Nat)
    (h : lookupU64Arr t cfgVdevStats = .ok arr) :
    ((to_vdev_stat arr).1 % 4294967296 = 7 →
      (to_vdev_stat arr).2 % 4294967296 = 0 →
      lookup_state t = .ok "ONLINE") ∧
    (7 < (to_vdev_stat arr).1 % 4294967296 →
      lookup_state t = .error (.invalidState "vs_state not in enum range")) ∧
    ((to_vdev_stat arr).1 % 4294967296 ≤ 7 →
      19 < (to_vdev_stat arr).2 % 4294967296 →
      lookup_state t = .error (.invalidState "vs_aux not in enum range")) ∧
    (∀ pb p d ph, lookupStr t cfgType = .ok VDEV_TYPE_DISK →
      lookupStr t cfgPath = .ok pb → cstr_into_string pb = .ok p →
      lookup_tree_str t cfgDevId = .ok d →
      lookup_tree_str t cfgPhysPath = .ok ph →
      ∀ e, lookup_state t = .error e → enumerate_vdev_tree t = .error e) ∧
    (∀ pb p, lookupStr t cfgType = .ok VDEV_TYPE_FILE →
      lookupStr t cfgPath = .ok pb → cstr_into_string pb = .ok p →
      ∀ e, lookup_state t = .error e → enumerate_vdev_tree t = .error e) := by
  refine ⟨?_, ?_, ?_, ?_, ?_⟩
  · intro h7 h0
    simp only [lookup_state, h]
    rw [h7, h0]
    simp only [to_vdev_state, to_vdev_aux]
    norm_num
    rfl
  · intro h7
    simp only [lookup_state, h]
    rw [show to_vdev_state ((to_vdev_stat arr).1 % 4294967296) = none from by
      simp only [to_vdev_state]; rw [if_neg (by omega)]]
  · intro h7 h19
    simp only [lookup_state, h]
    rw [show to_vdev_state ((to_vdev_stat arr).1 % 4294967296) =
        some ((to_vdev_stat arr).1 % 4294967296) from by
      simp only [to_vdev_state]; rw [if_pos h7]]
    rw [show to_vdev_aux ((to_vdev_stat arr).2 % 4294967296) = none from by
      simp only [to_vdev_aux]; rw [if_neg (by omega)]]
  · intro pb p d ph htype hpath hconv hd hph e he
    rw [evt_disk htype]
    simp only [hpath, hconv, hd, hph, he]
  · intro pb p htype hpath hconv e he
    rw [evt_file htype]
    simp only [hpath, hconv, he]

/-- C3 witness: a healthy disk node derives "ONLINE"; a disk whose status
code 9 is outside the domain fails with the InvalidState error; a status
code of `2 ^ 32 + 7` narrows to HEALTHY and derives "ONLINE"; a file node
with an out-of-domain status code fails to decode with the InvalidState
error. -/
theorem c3_state_derivation_witness :
    lookup_state diskBare = .ok "ONLINE" ∧
    lookup_state diskBadStats =
      .error (.invalidState "vs_state not in enum range") ∧
    lookup_state diskHighBits = .ok "ONLINE" ∧
    enumerate_vdev_tree fileBadStats =
      .error (.invalidState "vs_state not in enum range") :=
  ⟨(c3_state_derivation diskBare [0, 7, 0] rfl).1 rfl rfl,
   (c3_state_derivation diskBadStats [0, 9, 0] rfl).2.1 (by decide),
   (c3_state_derivation diskHighBits [0, 4294967303, 0] rfl).1 (by decide) rfl,
   (c3_state_derivation fileBadStats [0, 9, 0] rfl).2.2.2.2
     (asciiBytes "/vdev0.img") "/vdev0.img" rfl rfl rfl _ rfl⟩

/-- C4: a `root` node with decodable `children` whose `spares` and
`l2cache` array lookups fail decodes to `Root` with empty spares and empty
cache; the failure-tolerant `get_spares`/`get_cache` return the empty list
on any lookup failure. -/
theorem c4_empty_spares_cache (t : NvList) (cs : List NvList)
    (children : List VDev) (e1 e2 : LibZfsError)
    (htype : lookupStr t cfgType = .ok VDEV_TYPE_ROOT)
    (hc : lookupNvArr t cfgChildren = .ok cs)
    (hd : decodeList cs = .ok children)
    (hs : lookupNvArr t cfgSpares = .error e1)
    (hl : lookupNvArr t cfgL2cache = .error e2) :
    enumerate_vdev_tree t = .ok (VDev.Root children [] []) ∧
    get_spares t = .ok [] ∧ get_cache t = .ok [] := by
  refine ⟨?_, ?_, ?_⟩
  · rw [evt_root htype]
    simp only [hc, hd, hs, hl]
  · simp only [get_spares, hs]
  · simp only [get_cache, hl]

/-- C4 witness: a root with one bare disk child and no `spares`/`l2cache`
key decodes with empty spares and cache. -/
theorem c4_empty_spares_cache_witness :
    enumerate_vdev_tree rootNoSpares =
      .ok (VDev.Root [VDev.Disk none "ONLINE" "/dev/sda1" none none none none]
        [] []) ∧
    get_spares rootNoSpares = .ok [] :=
  ⟨((c4_empty_spares_cache rootNoSpares [diskBare]
      [VDev.Disk none "ONLINE" "/dev/sda1" none none none none]
      .notFound .notFound rfl rfl rfl rfl rfl).1),
   ((c4_empty_spares_cache rootNoSpares [diskBare]
      [VDev.Disk none "ONLINE" "/dev/sda1" none none none none]
      .notFound .notFound rfl rfl rfl rfl rfl).2.1)⟩

/-- C6: on a `disk` node, absent `dev_id` and `phys_path` keys still decode
(both fields `None`), while a failed `path` lookup or a failed state
derivation makes the node's decode fail. -/
theorem c6_disk_optional_mandatory (t : NvList) (pb : List Nat) (p st : String)
    (htype : lookupStr t cfgType = .ok VDEV_TYPE_DISK) :
    (lookupStr t cfgDevId = .error .notFound →
     lookupStr t cfgPhysPath = .error .notFound →
     lookupStr t cfgPath = .ok pb → cstr_into_string pb = .ok p →
     lookup_state t = .ok st →
     enumerate_vdev_tree t = .ok (VDev.Disk (lookup_guid t) st p none none
       (((lookupU64 t cfgWholeDisk).map (fun x => x == 1)).toOption)
       (lookup_is_log t))) ∧
    (∀ e, lookupStr t cfgPath = .error e → enumerate_vdev_tree t = .error e) ∧
    (∀ d ph e, lookupStr t cfgPath = .ok pb → cstr_into_string pb = .ok p →
      lookup_tree_str t cfgDevId = .ok d →
      lookup_tree_str t cfgPhysPath = .ok ph →
      lookup_state t = .error e → enumerate_vdev_tree t = .error e) := by
  refine ⟨?_, ?_, ?_⟩
  · intro hdnf hpnf hpath hconv hstate
    rw [evt_disk htype]
    simp only [hpath, hconv, lookup_tree_str, hdnf, hpnf, hstate]
  · intro e he
    rw [evt_disk htype]
    simp only [he]
  · intro d ph e h1 h2 h3 h4 h5
    rw [evt_disk htype]
    simp only [h1, h2, h3, h4, h5]

/-- C6 witness: the bare disk node (no `dev_id`, no `phys_path`) decodes
with both optional fields `None`. -/
theorem c6_disk_optional_mandatory_witness :
    enumerate_vdev_tree diskBare =
      .ok (VDev.Disk none "ONLINE" "/dev/sda1" none none none none) :=
  (c6_disk_optional_mandatory diskBare (asciiBytes "/dev/sda1") "/dev/sda1"
    "ONLINE" rfl).1 rfl rfl rfl rfl rfl

/-- C7 counterexample: on a node with no `type` key (the empty attribute
list) the decode fails with the propagated lookup error `NotFound`, which
is a different error from `UnknownVdevType` — so "fails with the
UnknownVdevType error" is false for an absent type key. -/
theorem c7_counterexample :
    enumerate_vdev_tree ([] : NvList) = .error .notFound ∧
    LibZfsError.notFound ≠ LibZfsError.unknownVdevType :=
  ⟨rfl, by decide⟩

/-- C7 (amended): a node whose `type` key lookup fails decodes to that
lookup's own error (`NotFound` when the key is absent), while only a
present type string outside the recognized vocabulary yields the
`UnknownVdevType` error. -/
theorem c7_amended (t : NvList) :
    (∀ e, lookupStr t cfgType = .error e → enumerate_vdev_tree t = .error e) ∧
    (∀ bs, lookupStr t cfgType = .ok bs →
      bs ≠ VDEV_TYPE_DISK → bs ≠ VDEV_TYPE_FILE → bs ≠ VDEV_TYPE_MIRROR →
      bs ≠ VDEV_TYPE_RAIDZ → bs ≠ VDEV_TYPE_REPLACING → bs ≠ VDEV_TYPE_ROOT →
      enumerate_vdev_tree t = .error .unknownVdevType) :=
  ⟨fun _ he => evt_tag_error he,
   fun _ h h1 h2 h3 h4 h5 h6 => evt_unknown h h1 h2 h3 h4 h5 h6⟩

/-- C7 witness: the empty node fails with `NotFound`; a `bogus`-typed node
fails with `UnknownVdevType`. -/
theorem c7_amended_witness :
    enumerate_vdev_tree ([] : NvList) = .error .notFound ∧
    enumerate_vdev_tree nodeBogus = .error .unknownVdevType :=
  ⟨(c7_amended []).1 .notFound rfl,
   (c7_amended nodeBogus).2 (asciiBytes "bogus") rfl (by decide) (by decide)
     (by decide) (by decide) (by decide) (by decide)⟩

/-- C8: on a `disk` node, `whole_disk` and `is_log` are
`Some (value == 1)` when the u64 lookup succeeds (so any value other than
1 gives `Some false`) and `None` when the lookup fails. -/
theorem c8_bool_fields (t : NvList) (pb : List Nat) (p st : String)
    (d ph : Option String)
    (htype : lookupStr t cfgType = .ok VDEV_TYPE_DISK)
    (hpath : lookupStr t cfgPath = .ok pb)
    (hconv : cstr_into_string pb = .ok p)
    (hd : lookup_tree_str t cfgDevId = .ok d)
    (hph : lookup_tree_str t cfgPhysPath = .ok ph)
    (hst : lookup_state t = .ok st) :
    (∀ v, lookupU64 t cfgWholeDisk = .ok v →
      enumerate_vdev_tree t = .ok (VDev.Disk (lookup_guid t) st p d ph
        (some (v == 1)) (lookup_is_log t))) ∧
    (∀ e, lookupU64 t cfgWholeDisk = .error e →
      enumerate_vdev_tree t = .ok (VDev.Disk (lookup_guid t) st p d ph
        none (lookup_is_log t))) ∧
    (∀ v, lookupU64 t cfgIsLog = .ok v → lookup_is_log t = some (v == 1)) ∧
    (∀ e, lookupU64 t cfgIsLog = .error e → lookup_is_log t = none) := by
  refine ⟨?_, ?_, ?_, ?_⟩
  · intro v hv
    rw [evt_disk htype]
    simp only [hpath, hconv, hd, hph, hst, hv]
    rfl
  · intro e he
    rw [evt_disk htype]
    simp only [hpath, hconv, hd, hph, hst, he]
    rfl
  · intro v hv
    simp only [lookup_is_log, hv]
    rfl
  · intro e he
    simp only [lookup_is_log, he]
    rfl

/-- C8 witness: a disk whose `whole_disk` value is 2 decodes with
`whole_disk = Some false`, and with no `is_log` key `is_log = None`. -/
theorem c8_bool_fields_witness :
    enumerate_vdev_tree diskWholeDisk2 =
      .ok (VDev.Disk none "ONLINE" "/dev/sda1" none none (some false) none) ∧
    lookup_is_log diskWholeDisk2 = none :=
  ⟨(c8_bool_fields diskWholeDisk2 (asciiBytes "/dev/sda1") "/dev/sda1"
      "ONLINE" none none rfl rfl rfl rfl rfl rfl).1 2 rfl,
   (c8_bool_fields diskWholeDisk2 (asciiBytes "/dev/sda1") "/dev/sda1"
      "ONLINE" none none rfl rfl rfl rfl rfl rfl).2.2.2 .notFound rfl⟩

/-- C10: the asymmetry of the optional string fields on a `disk` node, for
both `dev_id` and `phys_path`: a failed attribute lookup yields `None` and
the decode continues, but a successful lookup whose stored bytes are not
valid UTF-8 aborts the whole node decode with the string-conversion
error. -/
theorem c10_string_conversion_asymmetry (t : NvList) (pb : List Nat)
    (p st : String)
    (htype : lookupStr t cfgType = .ok VDEV_TYPE_DISK)
    (hpath : lookupStr t cfgPath = .ok pb)
    (hconv : cstr_into_string pb = .ok p)
    (hst : lookup_state t = .ok st) :
    (∀ e ph, lookupStr t cfgDevId = .error e →
      lookup_tree_str t cfgPhysPath = .ok ph →
      enumerate_vdev_tree t = .ok (VDev.Disk (lookup_guid t) st p none ph
        (((lookupU64 t cfgWholeDisk).map (fun x => x == 1)).toOption)
        (lookup_is_log t))) ∧
    (∀ bs, lookupStr t cfgDevId = .ok bs → utf8Decode bs = none →
      enumerate_vdev_tree t = .error .stringConversion) ∧
    (∀ d e, lookup_tree_str t cfgDevId = .ok d →
      lookupStr t cfgPhysPath = .error e →
      enumerate_vdev_tree t = .ok (VDev.Disk (lookup_guid t) st p d none
        (((lookupU64 t cfgWholeDisk).map (fun x => x == 1)).toOption)
        (lookup_is_log t))) ∧
    (∀ d bs, lookup_tree_str t cfgDevId = .ok d →
      lookupStr t cfgPhysPath = .ok bs → utf8Decode bs = none →
      enumerate_vdev_tree t = .error .stringConversion) ∧
    (∀ e, lookupStr t cfgDevId = .error e →
      lookup_tree_str t cfgDevId = .ok none) ∧
    (∀ e, lookupStr t cfgPhysPath = .error e →
      lookup_tree_str t cfgPhysPath = .ok none) := by
  refine ⟨?_, ?_, ?_, ?_, ?_, ?_⟩
  · intro e ph he hph
    rw [evt_disk htype]
    rw [show lookup_tree_str t cfgDevId = .ok none from by
      simp only [lookup_tree_str, he]]
    simp only [hpath, hconv, hph, hst]
  · intro bs hbs hutf
    rw [evt_disk htype]
    rw [show lookup_tree_str t cfgDevId = .error .stringConversion from by
      simp only [lookup_tree_str, hbs, cstr_into_string, hutf]; rfl]
    simp only [hpath, hconv]
  · intro d e hd he
    rw [evt_disk htype]
    rw [show lookup_tree_str t cfgPhysPath = .ok none from by
      simp only [lookup_tree_str, he]]
    simp only [hpath, hconv, hd, hst]
  · intro d bs hd hbs hutf
    rw [evt_disk htype]
    rw [show lookup_tree_str t cfgPhysPath = .error .stringConversion from by
      simp only [lookup_tree_str, hbs, cstr_into_string, hutf]; rfl]
    simp only [hpath, hconv, hd]
  · intro e he
    simp only [lookup_tree_str, he]
  · intro e he
    simp only [lookup_tree_str, he]

/-- C10 witness: a disk whose stored `dev_id` bytes are the invalid UTF-8
sequence [0xFF] fails with the string-conversion error, a disk whose
stored `phys_path` bytes are that sequence fails the same way, and the
bare disk with both keys absent decodes with both fields `None`. -/
theorem c10_string_conversion_asymmetry_witness :
    enumerate_vdev_tree diskBadDevId = .error .stringConversion ∧
    enumerate_vdev_tree diskBadPhysPath = .error .stringConversion ∧
    enumerate_vdev_tree diskBare =
      .ok (VDev.Disk none "ONLINE" "/dev/sda1" none none none none) :=
  ⟨(c10_string_conversion_asymmetry diskBadDevId (asciiBytes "/dev/sda1")
      "/dev/sda1" "ONLINE" rfl rfl rfl rfl).2.1 [255] rfl rfl,
   (c10_string_conversion_asymmetry diskBadPhysPath (asciiBytes "/dev/sda1")
      "/dev/sda1" "ONLINE" rfl rfl rfl rfl).2.2.2.1 none [255] rfl rfl rfl,
   (c10_string_conversion_asymmetry diskBare (asciiBytes "/dev/sda1")
      "/dev/sda1" "ONLINE" rfl rfl rfl rfl).1 .notFound none rfl rfl⟩

/-- C1: a `root` node whose `children` array holds N decodable mirror
nodes, whose `spares` array holds M decodable nodes and whose `l2cache`
array holds K decodable nodes decodes to `Root` with children, spares and
cache of lengths N, M and K, each output element the decode of the source
element at the same index. -/
theorem c1_root_shape (t : NvList) (cs ss ks : List NvList)
    (children spares cache : List VDev)
    (htype : lookupStr t cfgType = .ok VDEV_TYPE_ROOT)
    (hc : lookupNvArr t cfgChildren = .ok cs)
    (hs : lookupNvArr t cfgSpares = .ok ss)
    (hl : lookupNvArr t cfgL2cache = .ok ks)
    (hdc : decodeList cs = .ok children)
    (hds : decodeList ss = .ok spares)
    (hdk : decodeList ks = .ok cache)
    (hmirror : ∀ v ∈ children, ∃ ch lg, v = VDev.Mirror ch lg) :
    enumerate_vdev_tree t = .ok (VDev.Root children spares cache) ∧
    children.length = cs.length ∧ spares.length = ss.length ∧
    cache.length = ks.length ∧
    (∀ i (h1 : i < cs.length) (h2 : i < children.length),
      enumerate_vdev_tree (cs.get ⟨i, h1⟩) = .ok (children.get ⟨i, h2⟩)) ∧
    (∀ i (h1 : i < ss.length) (h2 : i < spares.length),
      enumerate_vdev_tree (ss.get ⟨i, h1⟩) = .ok (spares.get ⟨i, h2⟩)) ∧
    (∀ i (h1 : i < ks.length) (h2 : i < cache.length),
      enumerate_vdev_tree (ks.get ⟨i, h1⟩) = .ok (cache.get ⟨i, h2⟩)) := by
  refine ⟨?_, decodeList_ok_length hdc, decodeList_ok_length hds,
    decodeList_ok_length hdk, decodeList_ok_get hdc, decodeList_ok_get hds,
    decodeList_ok_get hdk⟩
  rw [evt_root htype]
  simp only [hc, hdc, hs, hds, hl, hdk]
  rfl

/-- C1 witness: the end-to-end test pool shape — a root with one mirror
child (itself two disks), two spares and one cache device — decodes with
lengths 1, 2 and 1 in source order. -/
theorem c1_root_shape_witness :
    enumerate_vdev_tree sampleRoot =
      .ok (VDev.Root
        [VDev.Mirror [sampleDiskV "/dev/sdb1", sampleDiskV "/dev/sdc1"] none]
        [sampleDiskV "/dev/sde1", sampleDiskV "/dev/sdf1"]
        [sampleDiskV "/dev/sdd1"]) :=
  (c1_root_shape sampleRoot
    [sampleMirror] [sampleDisk "/dev/sde1", sampleDisk "/dev/sdf1"]
    [sampleDisk "/dev/sdd1"]
    [VDev.Mirror [sampleDiskV "/dev/sdb1", sampleDiskV "/dev/sdc1"] none]
    [sampleDiskV "/dev/sde1", sampleDiskV "/dev/sdf1"]
    [sampleDiskV "/dev/sdd1"]
    rfl rfl rfl rfl rfl rfl rfl
    (by
      intro v hv
      simp only [List.mem_singleton] at hv
      exact ⟨_, _, hv⟩)).1

/-- Joint fuel induction for C2: whenever the decoder's traversal meets an
unrecognized type tag, decoding fails. -/
theorem visitedUnknownF_errors (fuel : Nat) :
    (∀ t, nvListSize t ≤ fuel → visitedUnknownF fuel t = true →
      ∃ e, evtF fuel t = .error e) ∧
    (∀ xs, nvListArrSize xs ≤ fuel → visitedUnknownListF fuel xs = true →
      ∃ e, decodeListF fuel xs = .error e) := by
  induction fuel with
  | zero =>
    constructor
    · intro t hsz _
      have := nvListSize_pos t
      omega
    · intro xs hsz _
      have := nvListArrSize_pos xs
      omega
  | succ f ih =>
    constructor
    · intro t hsz hvu
      rcases ht : lookupStr t cfgType with e | bs
      · simp [visitedUnknownF, ht] at hvu
      · simp only [visitedUnknownF, ht] at hvu
        simp only [evtF, evtBody, ht]
        by_cases hd : bs = VDEV_TYPE_DISK
        · simp [hd] at hvu
        · by_cases hfl : bs = VDEV_TYPE_FILE
          · simp [hfl] at hvu
          · rw [if_neg (by simp [hd, hfl])] at hvu
            simp only [if_neg hd, if_neg hfl]
            by_cases hm : bs = VDEV_TYPE_MIRROR
            · rw [if_pos (by simp [hm])] at hvu
              simp only [if_pos hm]
              rcases hc : lookupNvArr t cfgChildren with e2 | xss
              · simp [hc] at hvu
              · simp only [hc] at hvu ⊢
                have hb : nvListArrSize xss ≤ f := by
                  have := lookupNvArr_size hc
                  omega
                obtain ⟨e, he⟩ := ih.2 xss hb hvu
                exact ⟨e, by rw [he]; rfl⟩
            · by_cases hra : bs = VDEV_TYPE_RAIDZ
              · rw [if_pos (by simp [hra])] at hvu
                simp only [if_neg hm, if_pos hra]
                rcases hc : lookupNvArr t cfgChildren with e2 | xss
                · simp [hc] at hvu
                · simp only [hc] at hvu ⊢
                  have hb : nvListArrSize xss ≤ f := by
                    have := lookupNvArr_size hc
                    omega
                  obtain ⟨e, he⟩ := ih.2 xss hb hvu
                  exact ⟨e, by rw [he]; rfl⟩
              · by_cases hre : bs = VDEV_TYPE_REPLACING
                · rw [if_pos (by simp [hre])] at hvu
                  simp only [if_neg hm, if_neg hra, if_pos hre]
                  rcases hc : lookupNvArr t cfgChildren with e2 | xss
                  · simp [hc] at hvu
                  · simp only [hc] at hvu ⊢
                    have hb : nvListArrSize xss ≤ f := by
                      have := lookupNvArr_size hc
                      omega
                    obtain ⟨e, he⟩ := ih.2 xss hb hvu
                    exact ⟨e, by rw [he]; rfl⟩
                · by_cases hro : bs = VDEV_TYPE_ROOT
                  · rw [if_pos (by simp [hro])] at hvu
                    simp only [if_neg hm, if_neg hra, if_neg hre, if_pos hro]
                    rcases hc : lookupNvArr t cfgChildren with e2 | xss
                    · simp [hc] at hvu
                    · simp only [hc] at hvu ⊢
                      have hb : nvListArrSize xss ≤ f := by
                        have := lookupNvArr_size hc
                        omega
                      obtain ⟨e, he⟩ := ih.2 xss hb hvu
                      exact ⟨e, by rw [he]⟩
                  · rw [if_neg (by simp [hm, hra, hre, hro])] at hvu
                    simp only [if_neg hm, if_neg hra, if_neg hre, if_neg hro]
                    exact ⟨.unknownVdevType, rfl⟩
    · intro xs hsz hvl
      cases xs with
      | nil => simp [visitedUnknownListF] at hvl
      | cons x rest =>
        simp only [visitedUnknownListF, Bool.or_eq_true] at hvl
        simp only [decodeListF]
        rcases hv : evtF f x with e | v
        · exact ⟨e, rfl⟩
        · rw [nvListArrSize_cons] at hsz
          have hx := nvListSize_pos x
          have hr := nvListArrSize_pos rest
          rcases hvl with hvl | hvl
          · obtain ⟨e, he⟩ := ih.1 x (by omega) hvl
            rw [hv] at he
            simp at he
          · obtain ⟨e, he⟩ := ih.2 rest (by omega) hvl
            rw [he]
            exact ⟨e, rfl⟩

/-- C2 counterexample: a `disk` node carrying a `children` array whose
element has the unrecognized type `bogus` — a descendant reached through a
`children` array — still decodes successfully, because the decoder never
recurses below a leaf-typed node.  So, as stated over all descendants
reached through `children` arrays, the claim is false. -/
theorem c2_counterexample :
    someChildUnknown diskWithBogusChild = true ∧
    enumerate_vdev_tree diskWithBogusChild =
      .ok (VDev.Disk none "ONLINE" "/dev/sda1" none none none none) :=
  ⟨rfl, rfl⟩

/-- C2 (amended): whenever a node the decoder actually visits — the node
itself, or recursively the nodes of the `children` arrays of
`mirror`/`raidz`/`replacing`/`root`-typed nodes — carries a type outside
the vocabulary, decoding the whole tree fails with an error and no partial
`VDev` is produced (the error is the first one met in decode order, not
always `UnknownVdevType`). -/
theorem c2_amended (t : NvList) (h : visitedUnknown t = true) :
    ∃ e, enumerate_vdev_tree t = .error e :=
  (visitedUnknownF_errors (nvListSize t)).1 t le_rfl h

/-- C2 witness: a root whose only child is `bogus`-typed is flagged by the
traversal predicate and fails to decode. -/
theorem c2_amended_witness :
    visitedUnknown rootWithBogusChild = true ∧
    ∃ e, enumerate_vdev_tree rootWithBogusChild = .error e :=
  ⟨rfl, c2_amended rootWithBogusChild rfl⟩

/-- Joint fuel induction for C9: when no strictly-nested node is tagged
`root`, a successful decode has the `Root` variant at most at the top. -/
theorem strictNonRootF_rootFree (fuel : Nat) :
    (∀ t v, nvListSize t ≤ fuel → strictDescNonRootF fuel t = true →
      evtF fuel t = .ok v →
      noStrictRootDesc v = true ∧
      (isRootTagged t = false → rootFree v = true)) ∧
    (∀ xs vs, nvListArrSize xs ≤ fuel → listsNonRootF fuel xs = true →
      decodeListF fuel xs = .ok vs → rootFreeList vs = true) := by
  induction fuel with
  | zero =>
    constructor
    · intro t v hsz _ _
      have := nvListSize_pos t
      omega
    · intro xs vs hsz _ _
      have := nvListArrSize_pos xs
      omega
  | succ f ih =>
    constructor
    · intro t v hsz hsd hok
      simp only [strictDescNonRootF, Bool.and_eq_true] at hsd
      obtain ⟨⟨hsd1, hsd2⟩, hsd3⟩ := hsd
      simp only [evtF] at hok
      rcases ht : lookupStr t cfgType with e | bs
      · simp only [evtBody, ht] at hok
        simp at hok
      · simp only [evtBody, ht] at hok
        by_cases hd : bs = VDEV_TYPE_DISK
        · rw [if_pos hd] at hok
          rcases hp : lookupStr t cfgPath with e | pb
          · simp only [hp] at hok; simp at hok
          · simp only [hp] at hok
            rcases hcv : cstr_into_string pb with e | p
            · simp only [hcv] at hok; simp at hok
            · simp only [hcv] at hok
              rcases hdv : lookup_tree_str t cfgDevId with e | dv
              · simp only [hdv] at hok; simp at hok
              · simp only [hdv] at hok
                rcases hpp : lookup_tree_str t cfgPhysPath with e | pp
                · simp only [hpp] at hok; simp at hok
                · simp only [hpp] at hok
                  rcases hstt : lookup_state t with e | st
                  · simp only [hstt] at hok; simp at hok
                  · simp only [hstt] at hok
                    injection hok with hv
                    subst hv
                    exact ⟨by simp [noStrictRootDesc, rootFree],
                      fun _ => by simp [rootFree]⟩
        · rw [if_neg hd] at hok
          by_cases hfl : bs = VDEV_TYPE_FILE
          · rw [if_pos hfl] at hok
            rcases hp : lookupStr t cfgPath with e | pb
            · simp only [hp] at hok; simp at hok
            · simp only [hp] at hok
              rcases hcv : cstr_into_string pb with e | p
              · simp only [hcv] at hok; simp at hok
              · simp only [hcv] at hok
                rcases hstt : lookup_state t with e | st
                · simp only [hstt] at hok; simp at hok
                · simp only [hstt] at hok
                  injection hok with hv
                  subst hv
                  exact ⟨by simp [noStrictRootDesc, rootFree],
                    fun _ => by simp [rootFree]⟩
          · rw [if_neg hfl] at hok
            by_cases hm : bs = VDEV_TYPE_MIRROR
            · rw [if_pos hm] at hok
              rcases hc : lookupNvArr t cfgChildren with e | xss
              · simp only [hc] at hok; simp at hok
              · simp only [hc] at hok hsd1
                rcases hdl : decodeListF f xss with e | children
                · rw [hdl] at hok; simp [Except.map] at hok
                · rw [hdl] at hok
                  try simp only [Except.map] at hok
                  injection hok with hv
                  subst hv
                  have hb : nvListArrSize xss ≤ f := by
                    have := lookupNvArr_size hc
                    omega
                  have hrf := ih.2 xss children hb hsd1 hdl
                  exact ⟨by simp [noStrictRootDesc, rootFree, hrf],
                    fun _ => by simp [rootFree, hrf]⟩
            · rw [if_neg hm] at hok
              by_cases hra : bs = VDEV_TYPE_RAIDZ
              · rw [if_pos hra] at hok
                rcases hc : lookupNvArr t cfgChildren with e | xss
                · simp only [hc] at hok; simp at hok
                · simp only [hc] at hok hsd1
                  rcases hdl : decodeListF f xss with e | children
                  · rw [hdl] at hok; simp [Except.map] at hok
                  · rw [hdl] at hok
                    try simp only [Except.map] at hok
                    injection hok with hv
                    subst hv
                    have hb : nvListArrSize xss ≤ f := by
                      have := lookupNvArr_size hc
                      omega
                    have hrf := ih.2 xss children hb hsd1 hdl
                    exact ⟨by simp [noStrictRootDesc, rootFree, hrf],
                      fun _ => by simp [rootFree, hrf]⟩
              · rw [if_neg hra] at hok
                by_cases hre : bs = VDEV_TYPE_REPLACING
                · rw [if_pos hre] at hok
                  rcases hc : lookupNvArr t cfgChildren with e | xss
                  · simp only [hc] at hok; simp at hok
                  · simp only [hc] at hok hsd1
                    rcases hdl : decodeListF f xss with e | children
                    · rw [hdl] at hok; simp [Except.map] at hok
                    · rw [hdl] at hok
                      try simp only [Except.map] at hok
                      injection hok with hv
                      subst hv
                      have hb : nvListArrSize xss ≤ f := by
                        have := lookupNvArr_size hc
                        omega
                      have hrf := ih.2 xss children hb hsd1 hdl
                      exact ⟨by simp [noStrictRootDesc, rootFree, hrf],
                        fun _ => by simp [rootFree, hrf]⟩
                · rw [if_neg hre] at hok
                  by_cases hro : bs = VDEV_TYPE_ROOT
                  · rw [if_pos hro] at hok
                    have hrt : isRootTagged t = true := by
                      simp [isRootTagged, ht, hro]
                    rcases hc : lookupNvArr t cfgChildren with e | xss
                    · simp only [hc] at hok; simp at hok
                    · simp only [hc] at hok hsd1
                      rcases hdl : decodeListF f xss with e | children
                      · rw [hdl] at hok; simp [Except.map] at hok
                      · rw [hdl] at hok
                        have hbc : nvListArrSize xss ≤ f := by
                          have := lookupNvArr_size hc
                          omega
                        have hrfc := ih.2 xss children hbc hsd1 hdl
                        rcases hsp : lookupNvArr t cfgSpares with e | yss
                        · simp only [hsp] at hok
                          rcases hca : lookupNvArr t cfgL2cache with e | zss
                          · simp only [hca] at hok
                            injection hok with hv
                            subst hv
                            refine ⟨by simp [noStrictRootDesc, hrfc, rootFreeList],
                              fun hab => ?_⟩
                            rw [hrt] at hab
                            simp at hab
                          · simp only [hca] at hok hsd3
                            rcases hdz : decodeListF f zss with e | cache
                            · rw [hdz] at hok; simp [Except.map] at hok
                            · rw [hdz] at hok
                              try simp only [Except.map] at hok
                              injection hok with hv
                              subst hv
                              have hbz : nvListArrSize zss ≤ f := by
                                have := lookupNvArr_size hca
                                omega
                              have hrfz := ih.2 zss cache hbz hsd3 hdz
                              refine ⟨by simp [noStrictRootDesc, hrfc, hrfz,
                                rootFreeList], fun hab => ?_⟩
                              rw [hrt] at hab
                              simp at hab
                        · simp only [hsp] at hok hsd2
                          rcases hdy : decodeListF f yss with e | spares
                          · rw [hdy] at hok; simp at hok
                          · rw [hdy] at hok
                            have hby : nvListArrSize yss ≤ f := by
                              have := lookupNvArr_size hsp
                              omega
                            have hrfy := ih.2 yss spares hby hsd2 hdy
                            rcases hca : lookupNvArr t cfgL2cache with e | zss
                            · simp only [hca] at hok
                              injection hok with hv
                              subst hv
                              refine ⟨by simp [noStrictRootDesc, hrfc, hrfy,
                                rootFreeList], fun hab => ?_⟩
                              rw [hrt] at hab
                              simp at hab
                            · simp only [hca] at hok hsd3
                              rcases hdz : decodeListF f zss with e | cache
                              · rw [hdz] at hok; simp [Except.map] at hok
                              · rw [hdz] at hok
                                try simp only [Except.map] at hok
                                injection hok with hv
                                subst hv
                                have hbz : nvListArrSize zss ≤ f := by
                                  have := lookupNvArr_size hca
                                  omega
                                have hrfz := ih.2 zss cache hbz hsd3 hdz
                                refine ⟨by simp [noStrictRootDesc, hrfc, hrfy,
                                  hrfz, rootFreeList], fun hab => ?_⟩
                                rw [hrt] at hab
                                simp at hab
                  · rw [if_neg hro] at hok
                    simp at hok
    · intro xs vs hsz hl hok
      cases xs with
      | nil =>
        simp only [decodeListF] at hok
        injection hok with hv
        subst hv
        simp [rootFreeList]
      | cons x rest =>
        simp only [decodeListF] at hok
        simp only [listsNonRootF, Bool.and_eq_true] at hl
        obtain ⟨⟨hnr, hsdx⟩, hrest⟩ := hl
        rw [nvListArrSize_cons] at hsz
        have hx := nvListSize_pos x
        have hr := nvListArrSize_pos rest
        rcases hv : evtF f x with e | vx
        · rw [hv] at hok; simp at hok
        · rw [hv] at hok
          rcases hdr : decodeListF f rest with e | vrest
          · rw [hdr] at hok; simp at hok
          · rw [hdr] at hok
            injection hok with hv2
            subst hv2
            have h1 := (ih.1 x vx (by omega) hsdx hv).2 (by simpa using hnr)
            have h2 := ih.2 rest vrest (by omega) hrest hdr
            simp [rootFreeList, h1, h2]

/-- C9 counterexample: a `root` node whose child is itself tagged `root`
decodes successfully to a tree with a `Root` variant strictly below the
top — the decoder does not enforce the claimed invariant on its input. -/
theorem c9_counterexample :
    enumerate_vdev_tree rootNestedRoot =
      .ok (VDev.Root [VDev.Root [] [] []] [] []) ∧
    noStrictRootDesc (VDev.Root [VDev.Root [] [] []] [] []) = false :=
  ⟨rfl, rfl⟩

/-- C9 (amended): provided no strictly-nested node of the input is tagged
`root` — as in a well-formed pool configuration — every successful decode
yields a tree in which the `Root` variant occurs at most as the top-level
value and never as a descendant. -/
theorem c9_amended (t : NvList) (v : VDev)
    (h1 : strictDescNonRoot t = true)
    (h2 : enumerate_vdev_tree t = .ok v) :
    noStrictRootDesc v = true :=
  ((strictNonRootF_rootFree (nvListSize t)).1 t v le_rfl h1 h2).1

/-- C9 witness: the end-to-end test pool has no nested `root` tag and its
decoded tree has `Root` only at the top. -/
theorem c9_amended_witness :
    strictDescNonRoot sampleRoot = true ∧
    noStrictRootDesc (VDev.Root
      [VDev.Mirror [sampleDiskV "/dev/sdb1", sampleDiskV "/dev/sdc1"] none]
      [sampleDiskV "/dev/sde1", sampleDiskV "/dev/sdf1"]
      [sampleDiskV "/dev/sdd1"]) = true :=
  ⟨rfl, c9_amended sampleRoot _ rfl rfl⟩

/-- C5 witness: at the raw value 26 (= 0x1A) the format is the 18-character
string "0x000000000000001A" and `guid_hex` agrees. -/
theorem c5_guid_format_witness :
    26 < 2 ^ 64 ∧ (format_guid 26).length = 18 ∧
    guid_hex 26 = format_guid 26 ∧ format_guid 26 = "0x000000000000001A" :=
  ⟨by norm_num, (c5_guid_format 26 (by norm_num)).1,
   (c5_guid_format 26 (by norm_num)).2.2.2.2.1,
   (c5_guid_format 26 (by norm_num)).2.2.2.2.2.2⟩
